import Mathlib

/-!
Verification of src/format_transcript.py.

The two components with design content are modelled shallowly:

* `split_text` (lines 161-201): the chunking loop, modelled on `List Char`
  with explicit fuel.  The Python loop diverges when `max_tokens = 0`
  (the cursor never advances), so the model returns `Option`; fuel
  `text.length + 1` is proved sufficient whenever `max_tokens ≥ 1`.
* `format_transcript` (lines 203-257): the retry loop, modelled as a
  function of an oracle `Nat → ApiOutcome` giving the outcome of each
  successive API request, returning the run result together with the
  number of requests issued and the list of sleep durations.
-/

/-- Python `str.isspace`, the set of characters removed by `str.strip()`
with no arguments: the ASCII whitespace `\t \n \v \f \r` and space, the
separators `\x1c`-`\x1f`, next line `\x85`, no-break space `\xa0`, Ogham
space mark U+1680, the Unicode spaces U+2000-U+200A, the line and
paragraph separators U+2028 and U+2029, narrow no-break space U+202F,
medium mathematical space U+205F, and ideographic space U+3000. -/
def pyIsSpace (c : Char) : Bool :=
  (0x09 ≤ c.toNat && c.toNat ≤ 0x0d) || c.toNat = 0x20 ||
    (0x1c ≤ c.toNat && c.toNat ≤ 0x1f) || c.toNat = 0x85 || c.toNat = 0xa0 ||
    c.toNat = 0x1680 || (0x2000 ≤ c.toNat && c.toNat ≤ 0x200a) ||
    c.toNat = 0x2028 || c.toNat = 0x2029 || c.toNat = 0x202f ||
    c.toNat = 0x205f || c.toNat = 0x3000

/-- Python `str.strip()`: remove leading and trailing whitespace. -/
def pyStrip (s : List Char) : List Char :=
  ((s.dropWhile pyIsSpace).reverse.dropWhile pyIsSpace).reverse

/-- Index of the last `'.'` in a character list, if any. -/
def lastDotIdx : List Char → Option Nat
  | [] => none
  | c :: rest =>
    match lastDotIdx rest with
    | some i => some (i + 1)
    | none => if c = '.' then some 0 else none

/-- Python `text.rfind('.', 0, e)` from line 179, with `none` for `-1`:
the index of the last `'.'` within `text[0:e]`. -/
def pyRfindDot (s : List Char) (e : Nat) : Option Nat :=
  lastDotIdx (s.take e)

/-- The `split_at` value computed on lines 179-181: the last period
before `max_tokens`, or `max_tokens` itself when there is none. -/
def split_at (text : List Char) (max_tokens : Nat) : Nat :=
  match pyRfindDot text max_tokens with
  | none => max_tokens
  | some i => i

/-- The `while` loop of `split_text` (lines 178-193) followed by the
final `if text` append, with explicit fuel.  Each iteration either
appends the stripped candidate `text[:split_at]` and continues on the
stripped `text[split_at:]`, or — when the candidate strips to empty —
discards `text[:max_tokens]` and continues on the stripped
`text[max_tokens:]`. -/
def splitLoop (fuel : Nat) (text : List Char) (max_tokens : Nat) :
    Option (List (List Char)) :=
  match fuel with
  | 0 => none
  | fuel + 1 =>
    if text.length > max_tokens then
      if pyStrip (text.take (split_at text max_tokens)) = [] then
        splitLoop fuel (pyStrip (text.drop max_tokens)) max_tokens
      else
        (splitLoop fuel (pyStrip (text.drop (split_at text max_tokens))) max_tokens).map
          (fun rest => pyStrip (text.take (split_at text max_tokens)) :: rest)
    else
      if text = [] then some [] else some [text]

/-- `split_text` from lines 161-201.  Fuel `text.length + 1` is enough
whenever `max_tokens ≥ 1` (each iteration shortens the text); `none`
models the diverging runs with `max_tokens = 0`. -/
def split_text (text : List Char) (max_tokens : Nat) : Option (List (List Char)) :=
  splitLoop (text.length + 1) text max_tokens

theorem pyStrip_length_le (s : List Char) : (pyStrip s).length ≤ s.length := by
  unfold pyStrip
  rw [List.length_reverse]
  calc ((s.dropWhile pyIsSpace).reverse.dropWhile pyIsSpace).length
      ≤ (s.dropWhile pyIsSpace).reverse.length :=
        (List.dropWhile_sublist _).length_le
    _ = (s.dropWhile pyIsSpace).length := List.length_reverse _
    _ ≤ s.length := (List.dropWhile_sublist _).length_le

theorem lastDotIdx_lt (s : List Char) (i : Nat) (h : lastDotIdx s = some i) :
    i < s.length := by
  induction s generalizing i with
  | nil => simp [lastDotIdx] at h
  | cons c rest ih =>
    rw [lastDotIdx] at h
    cases hrest : lastDotIdx rest with
    | some j =>
      rw [hrest] at h
      simp only [Option.some.injEq] at h
      subst h
      have := ih j hrest
      simp only [List.length_cons]
      omega
    | none =>
      rw [hrest] at h
      simp only [] at h
      split at h
      · simp only [Option.some.injEq] at h
        subst h
        simp
      · exact absurd h (by simp)

theorem split_at_le (text : List Char) (mt : Nat) : split_at text mt ≤ mt := by
  cases h : lastDotIdx (text.take mt) with
  | none => simp [split_at, pyRfindDot, h]
  | some i =>
    have h1 := lastDotIdx_lt _ _ h
    have h2 : (text.take mt).length ≤ mt := by
      rw [List.length_take]
      exact Nat.min_le_left _ _
    simp only [split_at, pyRfindDot, h]
    omega

theorem pyStrip_nil : pyStrip [] = [] := rfl

theorem splitLoop_inv (fuel : Nat) : ∀ (text : List Char) (mt : Nat)
    (chunks : List (List Char)), splitLoop fuel text mt = some chunks →
    ∀ c ∈ chunks, c ≠ [] ∧ c.length ≤ mt := by
  induction fuel with
  | zero =>
    intro text mt chunks h
    simp [splitLoop] at h
  | succ fuel ih =>
    intro text mt chunks h c hc
    rw [splitLoop] at h
    split at h
    · rename_i hlen
      split at h
      · exact ih _ _ _ h c hc
      · rename_i hne
        rcases Option.map_eq_some'.mp h with ⟨rest, hrest, hchunks⟩
        subst hchunks
        rcases List.mem_cons.mp hc with hc | hc
        · subst hc
          refine ⟨hne, ?_⟩
          have h1 := pyStrip_length_le (text.take (split_at text mt))
          have h2 : (text.take (split_at text mt)).length ≤ split_at text mt := by
            rw [List.length_take]
            exact Nat.min_le_left _ _
          have h3 := split_at_le text mt
          omega
        · exact ih _ _ _ hrest c hc
    · rename_i hlen
      split at h
      · simp only [Option.some.injEq] at h
        subst h
        simp at hc
      · rename_i hne
        simp only [Option.some.injEq] at h
        subst h
        rcases List.mem_cons.mp hc with hc | hc
        · subst hc
          exact ⟨hne, by omega⟩
        · simp at hc

theorem splitLoop_isSome (fuel : Nat) : ∀ (text : List Char) (mt : Nat),
    1 ≤ mt → text.length < fuel → (splitLoop fuel text mt).isSome = true := by
  induction fuel with
  | zero =>
    intro text mt h1 h2
    omega
  | succ fuel ih =>
    intro text mt h1 h2
    rw [splitLoop]
    split
    · rename_i hlen
      split
      · apply ih _ _ h1
        have ha := pyStrip_length_le (text.drop mt)
        have hb := List.length_drop mt text
        omega
      · rename_i hne
        have hsa : split_at text mt ≠ 0 := by
          intro h0
          exact hne (by rw [h0]; rfl)
        have ha := pyStrip_length_le (text.drop (split_at text mt))
        have hb := List.length_drop (split_at text mt) text
        have hc := ih (pyStrip (text.drop (split_at text mt))) mt h1 (by omega)
        rcases Option.isSome_iff_exists.mp hc with ⟨r, hr⟩
        rw [hr]
        rfl
    · split <;> rfl

theorem dropWhile_replicate_pos {α : Type} (p : α → Bool) (c : α) (h : p c = true) :
    ∀ n, List.dropWhile p (List.replicate n c) = [] := by
  intro n
  induction n with
  | zero => rfl
  | succ n ih => simp [List.replicate_succ, List.dropWhile_cons, h, ih]

theorem dropWhile_replicate_neg {α : Type} (p : α → Bool) (c : α) (h : p c = false) :
    ∀ n, List.dropWhile p (List.replicate n c) = List.replicate n c := by
  intro n
  cases n with
  | zero => rfl
  | succ n => simp [List.replicate_succ, List.dropWhile_cons, h]

theorem pyStrip_replicate_space (c : Char) (h : pyIsSpace c = true) (n : Nat) :
    pyStrip (List.replicate n c) = [] := by
  unfold pyStrip
  rw [dropWhile_replicate_pos _ _ h]
  rfl

theorem pyStrip_replicate_nonspace (c : Char) (h : pyIsSpace c = false) (n : Nat) :
    pyStrip (List.replicate n c) = List.replicate n c := by
  unfold pyStrip
  rw [dropWhile_replicate_neg _ _ h, List.reverse_replicate,
    dropWhile_replicate_neg _ _ h, List.reverse_replicate]

theorem lastDotIdx_replicate (c : Char) (h : ¬c = '.') :
    ∀ n, lastDotIdx (List.replicate n c) = none := by
  intro n
  induction n with
  | zero => rfl
  | succ n ih => rw [List.replicate_succ, lastDotIdx, ih]; simp [h]

theorem take_replicate_of_le {α : Type} (c : α) :
    ∀ (m n : Nat), m ≤ n → List.take m (List.replicate n c) = List.replicate m c := by
  intro m
  induction m with
  | zero => intro n h; rfl
  | succ m ih =>
    intro n h
    cases n with
    | zero => omega
    | succ n =>
      rw [List.replicate_succ, List.take_succ_cons, List.replicate_succ, ih n (by omega)]

theorem drop_replicate_eq {α : Type} (c : α) :
    ∀ (m n : Nat), List.drop m (List.replicate n c) = List.replicate (n - m) c := by
  intro m
  induction m with
  | zero => intro n; simp
  | succ m ih =>
    intro n
    cases n with
    | zero => simp
    | succ n =>
      rw [List.replicate_succ, List.drop_succ_cons, ih n]
      congr 1
      omega

theorem split_at_replicate (c : Char) (h : ¬c = '.') (n mt : Nat) (hmn : mt ≤ n) :
    split_at (List.replicate n c) mt = mt := by
  unfold split_at pyRfindDot
  rw [take_replicate_of_le c mt n hmn, lastDotIdx_replicate c h]

/-- Claim C1: the spec's example claims `split_text` on
`"Hello world. This is a test."` with max size 15 yields
`["Hello world.", "This is a test."]`.  The code instead yields
`["Hello world", "t."]`: line 182 takes `text[:split_at]`, which
excludes the period at index `split_at`, so the period migrates to the
front of the remainder; the next candidate `text[:0]` strips to empty
and line 190 discards `text[:15] = ". This is a te"`, losing
`" This is a tes"`.  This theorem evaluates the code at the spec's
input, exhibiting the divergence. -/
theorem split_text_hello_world_result :
    split_text ("Hello world. This is a test.".toList) 15 =
      some ["Hello world".toList, "t.".toList] := by decide

/-- Claim C2: the claim that concatenating the chunks preserves every
non-whitespace character fails: on input `".."` with max size 1 the
first candidate `text[:0]` strips to empty, so line 190 discards
`text[:1] = "."`, a non-whitespace character, and the output is
`["."]`.  This theorem evaluates the code at that failing input and
shows the non-whitespace content of the output differs from that of
the input. -/
theorem split_text_drops_nonwhitespace :
    split_text ("..".toList) 1 = some [".".toList] ∧
      (".".toList).filter (fun c => !pyIsSpace c) ≠
        ("..".toList).filter (fun c => !pyIsSpace c) := by decide

/-- Claim C3 counterexample: for the input `" a "` (length 3 < 15) the
claim asserts the single returned chunk is the trimmed input `"a"`;
the code returns the input verbatim, untrimmed, because the final
`chunks.append(text)` on line 193 does not strip and the loop body
never ran. -/
theorem split_text_short_untrimmed_cex :
    split_text (" a ".toList) 15 = some [" a ".toList] ∧
      " a ".toList ≠ pyStrip (" a ".toList) := by decide

/-- Claim C3 (amended): for every input text strictly shorter than the
maximum chunk size, `split_text` returns the input itself as the single
chunk, verbatim (not trimmed), when the input is non-empty, and returns
no chunks when the input is empty. -/
theorem split_text_short_input (text : List Char) (mt : Nat) (h : text.length < mt) :
    split_text text mt = some (if text = [] then [] else [text]) := by
  unfold split_text
  rw [splitLoop, if_neg (by omega)]
  by_cases htext : text = [] <;> simp [htext]

/-- Witness for `split_text_short_input` at the concrete input `" a "`
with maximum chunk size 15. -/
theorem split_text_short_input_witness :
    (" a ".toList).length < 15 ∧
      split_text (" a ".toList) 15 =
        some (if " a ".toList = [] then [] else [" a ".toList]) :=
  ⟨by decide, split_text_short_input (" a ".toList) 15 (by decide)⟩

/-- Claim C5: for every input text and maximum chunk size at least 1,
`split_text` terminates: fuel `text.length + 1` always suffices, i.e.
the loop makes forward progress on every iteration (including the
empty-candidate branch, which advances the cursor by `max_tokens`). -/
theorem split_text_terminates (text : List Char) (mt : Nat) (h : 1 ≤ mt) :
    (split_text text mt).isSome = true :=
  splitLoop_isSome _ text mt h (Nat.lt_succ_self _)

/-- Witness for `split_text_terminates` on adversarial input: five
periods with maximum chunk size 1. -/
theorem split_text_terminates_witness :
    1 ≤ 1 ∧ (split_text (List.replicate 5 '.') 1).isSome = true :=
  ⟨by decide, split_text_terminates (List.replicate 5 '.') 1 (by decide)⟩

/-- Claim C6: no element of a chunk list returned by `split_text` is the
empty string: the loop only appends candidates that are non-empty after
stripping (line 183), and the final append is guarded by `if text`
(line 191). -/
theorem split_text_no_empty_chunk (text : List Char) (mt : Nat)
    (chunks : List (List Char)) (c : List Char)
    (h : split_text text mt = some chunks) (hc : c ∈ chunks) : c ≠ [] :=
  (splitLoop_inv _ text mt chunks h c hc).1

/-- Witness for `split_text_no_empty_chunk` at input `"ab"` with maximum
chunk size 1. -/
theorem split_text_no_empty_chunk_witness :
    split_text ("ab".toList) 1 = some [['a'], ['b']] ∧ (['a'] : List Char) ≠ [] :=
  ⟨by decide,
    split_text_no_empty_chunk ("ab".toList) 1 [['a'], ['b']] ['a'] (by decide) (by decide)⟩

/-- Claim C9: every chunk returned by `split_text`, including the final
one, has length at most `max_tokens`: loop chunks are prefixes of
length at most `split_at ≤ max_tokens` and the final chunk is only
appended once the loop guard `len(text) > max_tokens` fails. -/
theorem split_text_chunk_le_max (text : List Char) (mt : Nat)
    (chunks : List (List Char)) (c : List Char) (_h1 : 1 ≤ mt)
    (h : split_text text mt = some chunks) (hc : c ∈ chunks) : c.length ≤ mt :=
  (splitLoop_inv _ text mt chunks h c hc).2

/-- Witness for `split_text_chunk_le_max` at input `"ab"` with maximum
chunk size 1. -/
theorem split_text_chunk_le_max_witness :
    split_text ("ab".toList) 1 = some [['a'], ['b']] ∧ (['a'] : List Char).length ≤ 1 :=
  ⟨by decide,
    split_text_chunk_le_max ("ab".toList) 1 [['a'], ['b']] ['a'] (by decide) (by decide)
      (by decide)⟩

theorem replicate_ne_nil_of_pos {α : Type} (c : α) (n : Nat) (h : 0 < n) :
    List.replicate n c ≠ [] := by
  intro hx
  have h5 := congrArg List.length hx
  rw [List.length_replicate, List.length_nil] at h5
  omega

/-- Claim C7 counterexample: a run of 3000 spaces is an input of 3000
identical non-period characters, yet with max size 2000 the code
returns no chunks at all (both candidate windows strip to empty), not
the two chunks of lengths 2000 and 1000 the claim asserts. -/
theorem split_text_replicate_space_cex :
    split_text (List.replicate 3000 ' ') 2000 = some [] ∧
      ([] : List (List Char)).length ≠ 2 := by
  constructor
  · have hsa : split_at (List.replicate 3000 ' ') 2000 = 2000 :=
      split_at_replicate ' ' (by decide) 3000 2000 (by omega)
    unfold split_text
    rw [List.length_replicate]
    rw [splitLoop, if_pos (by rw [List.length_replicate]; omega), hsa,
      take_replicate_of_le ' ' 2000 3000 (by omega),
      pyStrip_replicate_space ' ' (by decide) 2000,
      if_pos rfl,
      drop_replicate_eq ' ' 2000 3000]
    rw [show (3000 - 2000 : Nat) = 1000 from rfl,
      pyStrip_replicate_space ' ' (by decide) 1000]
    rw [show (3000 : Nat) = 2999 + 1 from rfl]
    rw [splitLoop, if_neg (by decide), if_pos rfl]
  · decide

/-- Claim C7 (amended): for an input of 3000 identical non-period,
non-whitespace characters and max size 2000, `split_text` returns
exactly two chunks, of lengths 2000 and 1000 (hard split at the maximum
size, since no period is found). -/
theorem split_text_replicate_nonspace (c : Char) (h1 : ¬c = '.')
    (h2 : pyIsSpace c = false) :
    split_text (List.replicate 3000 c) 2000 =
      some [List.replicate 2000 c, List.replicate 1000 c] := by
  have hsa : split_at (List.replicate 3000 c) 2000 = 2000 :=
    split_at_replicate c h1 3000 2000 (by omega)
  unfold split_text
  rw [List.length_replicate]
  rw [splitLoop, if_pos (by rw [List.length_replicate]; omega), hsa,
    take_replicate_of_le c 2000 3000 (by omega),
    pyStrip_replicate_nonspace c h2 2000,
    if_neg (replicate_ne_nil_of_pos c 2000 (by omega)),
    drop_replicate_eq c 2000 3000]
  rw [show (3000 - 2000 : Nat) = 1000 from rfl,
    pyStrip_replicate_nonspace c h2 1000]
  rw [show (3000 : Nat) = 2999 + 1 from rfl]
  rw [splitLoop, if_neg (by rw [List.length_replicate]; omega),
    if_neg (replicate_ne_nil_of_pos c 1000 (by omega))]
  rfl

/-- Witness for `split_text_replicate_nonspace` at the character `'a'`. -/
theorem split_text_replicate_nonspace_witness :
    'a' ≠ '.' ∧ pyIsSpace 'a' = false ∧
      split_text (List.replicate 3000 'a') 2000 =
        some [List.replicate 2000 'a', List.replicate 1000 'a'] :=
  ⟨by decide, by decide, split_text_replicate_nonspace 'a' (by decide) (by decide)⟩

/-- Outcome of one `client.chat.completions.create` call as classified
by the handlers on lines 230-257: a successful response carrying the
completion text, `openai.RateLimitError`, any other `openai.APIError`,
or any other exception. -/
inductive ApiOutcome where
  | success (content : List Char)
  | rateLimitError
  | apiError
  | otherError
deriving DecidableEq

/-- How a run of `format_transcript` ends: a normal `return` of the
formatted text, a `sys.exit(1)` process termination, or falling off the
end of the `while` loop (Python then returns `None`). -/
inductive RunResult where
  | returns (s : List Char)
  | exits
  | fallsThrough
deriving DecidableEq

/-- Observable behaviour of one `format_transcript` run: how it ended,
how many API requests it issued, and the sequence of `time.sleep`
durations (in seconds) it performed, in order. -/
structure RunOutput where
  result : RunResult
  requests : Nat
  sleeps : List Nat
deriving DecidableEq

/-- The retry loop of `format_transcript` (lines 224-257), from the
state `attempt`.  The `outcome` oracle gives the result of each
successive API request; request number `attempt` is issued while
`attempt <= max_retries` holds.  A rate-limit failure increments the
counter, exits when it exceeds `max_retries`, and otherwise sleeps
`2 ** attempt` seconds (with the incremented counter) and retries; any
other error exits at once. -/
def formatLoop (outcome : Nat → ApiOutcome) (max_retries : Int) (attempt : Nat) :
    RunOutput :=
  if _h1 : (attempt : Int) ≤ max_retries then
    match outcome attempt with
    | ApiOutcome.success content => ⟨RunResult.returns (pyStrip content), 1, []⟩
    | ApiOutcome.rateLimitError =>
      if _h2 : (attempt : Int) + 1 > max_retries then ⟨RunResult.exits, 1, []⟩
      else
        ⟨(formatLoop outcome max_retries (attempt + 1)).result,
         (formatLoop outcome max_retries (attempt + 1)).requests + 1,
         2 ^ (attempt + 1) :: (formatLoop outcome max_retries (attempt + 1)).sleeps⟩
    | ApiOutcome.apiError => ⟨RunResult.exits, 1, []⟩
    | ApiOutcome.otherError => ⟨RunResult.exits, 1, []⟩
  else ⟨RunResult.fallsThrough, 0, []⟩
termination_by max_retries.toNat + 1 - attempt
decreasing_by all_goals omega

/-- `format_transcript` from lines 203-257: the retry loop started at
`attempt = 0`.  `max_retries` is an `Int` because the Python value comes
from `--max_retries` unchecked and may be negative. -/
def format_transcript (outcome : Nat → ApiOutcome) (max_retries : Int) : RunOutput :=
  formatLoop outcome max_retries 0

theorem range_pow_cons (a d : Nat) :
    (List.range (d + 1)).map (fun k => 2 ^ (a + k + 1)) =
      2 ^ (a + 1) :: (List.range d).map (fun k => 2 ^ (a + 1 + k + 1)) := by
  rw [List.range_succ_eq_map, List.map_cons, List.map_map]
  refine congrArg₂ _ (by norm_num) ?_
  apply List.map_congr_left
  intro k _
  simp only [Function.comp_apply]
  congr 1
  omega

theorem formatLoop_allRL (outcome : Nat → ApiOutcome)
    (hout : ∀ k, outcome k = ApiOutcome.rateLimitError) (N : Int) :
    ∀ (d a : Nat), N.toNat - a = d → (a : Int) ≤ N →
      formatLoop outcome N a =
        ⟨RunResult.exits, d + 1, (List.range d).map (fun k => 2 ^ (a + k + 1))⟩ := by
  intro d
  induction d with
  | zero =>
    intro a hd ha
    unfold formatLoop
    rw [dif_pos ha, hout a]
    rw [dif_pos (by omega)]
    rfl
  | succ d ih =>
    intro a hd ha
    have hrec := ih (a + 1) (by omega) (by omega)
    unfold formatLoop
    rw [dif_pos ha, hout a]
    rw [dif_neg (by omega), hrec, range_pow_cons]

/-- Claim C4: if every request fails with a rate-limit error, then with
retry bound `N ≥ 0` the loop issues exactly `N + 1` requests (hence at
most `N + 1`), terminates the process, and the sleep performed before
retry attempt `k` (1-based) is exactly `2 ^ k` seconds, with no cap:
the full sleep sequence is `[2^1, ..., 2^N]`. -/
theorem format_transcript_all_rate_limited (outcome : Nat → ApiOutcome) (N : Int)
    (hN : 0 ≤ N) (hout : ∀ k, outcome k = ApiOutcome.rateLimitError) :
    format_transcript outcome N =
      ⟨RunResult.exits, N.toNat + 1, (List.range N.toNat).map (fun k => 2 ^ (k + 1))⟩ := by
  unfold format_transcript
  rw [formatLoop_allRL outcome hout N N.toNat 0 (by omega) (by exact_mod_cast hN)]
  refine congrArg₂ _ rfl ?_
  apply List.map_congr_left
  intro k _
  norm_num

/-- Witness for `format_transcript_all_rate_limited` with `N = 2`:
three requests, process exit, sleeps of 2 and 4 seconds. -/
theorem format_transcript_all_rate_limited_witness :
    0 ≤ (2 : Int) ∧
      format_transcript (fun _ => ApiOutcome.rateLimitError) 2 =
        ⟨RunResult.exits, (2 : Int).toNat + 1,
          (List.range (2 : Int).toNat).map (fun k => 2 ^ (k + 1))⟩ :=
  ⟨by decide,
    format_transcript_all_rate_limited (fun _ => ApiOutcome.rateLimitError) 2
      (by decide) (fun _ => rfl)⟩

/-- Claim C8: a non-retryable service error (any `openai.APIError`
other than a rate limit, or any unexpected exception) on the first
request makes `format_transcript` issue exactly one request, sleep
never, and terminate the process. -/
theorem format_transcript_nonretryable (outcome : Nat → ApiOutcome) (N : Int)
    (hN : 0 ≤ N)
    (h : outcome 0 = ApiOutcome.apiError ∨ outcome 0 = ApiOutcome.otherError) :
    format_transcript outcome N = ⟨RunResult.exits, 1, []⟩ := by
  unfold format_transcript formatLoop
  rw [dif_pos (by exact_mod_cast hN)]
  rcases h with h | h <;> rw [h]

/-- Witness for `format_transcript_nonretryable` with an `APIError` on
the first request and the default retry bound 5. -/
theorem format_transcript_nonretryable_witness :
    0 ≤ (5 : Int) ∧ (fun _ => ApiOutcome.apiError) 0 = ApiOutcome.apiError ∧
      format_transcript (fun _ => ApiOutcome.apiError) 5 = ⟨RunResult.exits, 1, []⟩ :=
  ⟨by decide, rfl,
    format_transcript_nonretryable (fun _ => ApiOutcome.apiError) 5 (by decide)
      (Or.inl rfl)⟩

/-- Claim C10: with a negative `max_retries` the loop guard
`attempt <= max_retries` is false at once, so the body never runs: no
request is issued, no sleep is performed, the process is not
terminated, and the function falls through returning `None`. -/
theorem format_transcript_negative_retries (outcome : Nat → ApiOutcome) (N : Int)
    (h : N < 0) : format_transcript outcome N = ⟨RunResult.fallsThrough, 0, []⟩ := by
  unfold format_transcript formatLoop
  rw [dif_neg (by exact_mod_cast by omega)]

/-- Witness for `format_transcript_negative_retries` at
`max_retries = -1`. -/
theorem format_transcript_negative_retries_witness :
    (-1 : Int) < 0 ∧
      format_transcript (fun _ => ApiOutcome.success []) (-1) =
        ⟨RunResult.fallsThrough, 0, []⟩ :=
  ⟨by decide,
    format_transcript_negative_retries (fun _ => ApiOutcome.success []) (-1) (by decide)⟩
